import Mathlib

/-!
Verification of the retry/backoff core of the `decogen` repository.

The Go sources are shallowly embedded:
* `GoErr` models Go `error` values as they occur in the retry package:
  the sentinel errors, `*UnrecoverableError`, the two `fmt.Errorf`
  wrapping shapes (`"%w: %w"` wraps both operands into the chain,
  `"%w: %v"` wraps only the first and merely prints the second), and
  opaque caller errors (`base n`).
* `errIs` models `errors.Is` (pointer/sentinel equality plus unwrap
  traversal), `isUnrecoverableError` models `errors.As` probing for
  `*UnrecoverableError`.
* `GoBackOff.Delay` embeds `(*BackOff).Delay` from pkg/backoff/backoff.go
  with float64 arithmetic carried out exactly over `ℚ` and the
  float-to-Duration conversion as truncation toward zero (`ratTrunc`);
  `time.Duration` is `Int`.
* The retry executor (`doRetry`, `Do`, `DoWithValue`, `WithTimeout`,
  `validateConfig`, `defaultRecoverable`) is embedded with the context
  modelled as, per loop iteration, the three observation points the code
  has (`ctx.Err()` before the attempt, `ctx.Err()` after a failure, and
  whether `ctx.Done()` wins the select during the wait); `ctx.Err()` can
  only ever be `context.Canceled` or `context.DeadlineExceeded`.
  Operation closures carry their state explicitly.
-/

namespace Decogen

/-- Go `error` values arising in the retry package. `nilOperand` stands for
a nil error handed to a formatting verb (unreachable through the public
entry points). -/
inductive GoErr where
  | canceled
  | deadlineExceeded
  | allAttemptsFailed
  | backoffRequired
  | timeoutNotPositive
  | nilOperand
  | base (n : Nat)
  | unrecoverable (cause : GoErr)
  | wrapBoth (a b : GoErr)
  | wrapMsg (a b : GoErr)
deriving DecidableEq, Repr

/-- `errors.Is(e, t)`: equality at each chain node, descending through
`Unwrap`. `fmt.Errorf` with two `%w` verbs exposes both operands via
`Unwrap() []error`; with `%w: %v` only the first operand is wrapped. -/
def errIs (e t : GoErr) : Bool :=
  if e = t then true else
  match e with
  | .unrecoverable c => errIs c t
  | .wrapBoth a b => errIs a t || errIs b t
  | .wrapMsg a _ => errIs a t
  | _ => false

/-- `errors.As(err, &unrecoverableErr)` for `*UnrecoverableError`:
type-probe at each chain node. -/
def isUnrecoverableError : GoErr → Bool
  | .unrecoverable _ => true
  | .wrapBoth a b => isUnrecoverableError a || isUnrecoverableError b
  | .wrapMsg a _ => isUnrecoverableError a
  | _ => false

/-- `errors.Is` on a possibly-nil error. -/
def errIsO : Option GoErr → GoErr → Bool
  | none, _ => false
  | some e, t => errIs e t

/-- `IsUnrecoverableError` on a possibly-nil error. -/
def isUnrecoverableErrorO : Option GoErr → Bool
  | none => false
  | some e => isUnrecoverableError e

/-- `defaultRecoverable` (latest version in errors.go): recoverable iff
non-nil, not `context.Canceled`, not `context.DeadlineExceeded`, and not
marked unrecoverable. -/
def defaultRecoverable (err : Option GoErr) : Bool :=
  err.isSome && !errIsO err .canceled && !errIsO err .deadlineExceeded
    && !isUnrecoverableErrorO err

/-- The unwrap chain of an error: the error itself together with
everything reachable through `Unwrap`. Used to phrase chain membership
the way the spec words it. -/
def errChain : GoErr → List GoErr
  | .unrecoverable c => .unrecoverable c :: errChain c
  | .wrapBoth a b => .wrapBoth a b :: (errChain a ++ errChain b)
  | .wrapMsg a b => .wrapMsg a b :: errChain a
  | e => [e]

/-- Whether a single error value is (at top level) the unrecoverable
marker. -/
def isMarkedNode : GoErr → Bool
  | .unrecoverable _ => true
  | _ => false

/-! ### Backoff arithmetic (pkg/backoff/backoff.go) -/

/-- Go's float64-to-int64 conversion truncates toward zero; the float
arithmetic itself is modelled exactly over `ℚ`. -/
def ratTrunc (q : ℚ) : Int := q.num.tdiv q.den

/-- The `BackOff` struct: `minDelay`, `maxDelay` are `time.Duration`
(`Int`), `factor` and `jitter` are float64 (`ℚ`). The random source is
factored out: `Delay` takes the drawn `rnd.Float64()` value explicitly. -/
structure GoBackOff where
  minDelay : Int
  maxDelay : Int
  factor : ℚ
  jitter : ℚ

/-- `(*BackOff).Delay(previous)`, with `rnd` the value produced by
`b.rnd.Float64()` on this call. -/
def GoBackOff.Delay (b : GoBackOff) (rnd : ℚ) (previous : Int) : Int :=
  let previous := if previous < b.minDelay then b.minDelay else previous
  let delay := ratTrunc ((previous : ℚ) * b.factor)
  let delay := if delay > b.maxDelay then b.maxDelay else delay
  let jitterFactor := (rnd - 0.5) * b.jitter
  let jitterAmount := ratTrunc ((delay : ℚ) * jitterFactor)
  let delay := delay + jitterAmount
  if delay < b.minDelay then b.minDelay
  else if delay > b.maxDelay then b.maxDelay
  else delay

/-- Clamp an integer into `[lo, hi]`. -/
def clamp (x lo hi : Int) : Int :=
  if x < lo then lo else if x > hi then hi else x

/-- Modelled from the spec's formula for the jitter-free case:
`clamp(max(previous, minDelay) * factor, minDelay, maxDelay)`, with the
same exact-rational product and truncation as the code's conversion. -/
def specNextDelayNoJitter (b : GoBackOff) (previous : Int) : Int :=
  clamp (ratTrunc ((max previous b.minDelay : Int) * b.factor)) b.minDelay b.maxDelay

/-! ### Retry executor (pkg/decorators/retry, latest version in errors.go) -/

/-- `context.Context.Err()` returns `context.Canceled` or
`context.DeadlineExceeded` once the context is done, else nil. -/
inductive CtxErr where
  | canceled
  | deadlineExceeded
deriving DecidableEq, Repr

/-- The `error` value a done context reports. -/
def CtxErr.toErr : CtxErr → GoErr
  | .canceled => .canceled
  | .deadlineExceeded => .deadlineExceeded

/-- The context as observed by one loop iteration of `doRetry`:
`ctx.Err()` before the attempt, `ctx.Err()` re-checked after a failed
attempt, and whether `ctx.Done()` wins the select during the wait (and
with which error). -/
structure CtxIter where
  errBefore : Option CtxErr
  errAfter : Option CtxErr
  waitCancel : Option CtxErr
deriving DecidableEq, Repr

/-- A context, iteration by iteration (iteration `k` runs with
`attempt = k`). -/
def CtxModel := Nat → CtxIter

/-- A context that is never cancelled. -/
def ctxNone : CtxModel := fun _ => ⟨none, none, none⟩

/-- The `Backoff` interface consumed by the executor. -/
structure BackoffIface where
  minDelay : Int
  delay : Int → Int

/-- `Config` for retry operations. The `OnRetry` callback is opaque to
the executor; only its presence matters, and the trace records the
arguments of every call made to it. -/
structure Config where
  maxAttempts : Nat
  backoff : Option BackoffIface
  isRecoverable : Option (Option GoErr → Bool)
  onRetryPresent : Bool

/-- `validateConfig`: a nil backoff is a misconfiguration;
`MaxAttempts == 0` is coerced to 1; a nil `IsRecoverable` is replaced by
`defaultRecoverable`. -/
def validateConfig (c : Config) :
    Except GoErr (BackoffIface × Nat × (Option GoErr → Bool)) :=
  match c.backoff with
  | none => .error .backoffRequired
  | some b =>
    .ok (b, if c.maxAttempts = 0 then 1 else c.maxAttempts,
      c.isRecoverable.getD defaultRecoverable)

/-- Result of the `doRetry` loop: its error return, the final state of
the operation closure, and the arguments of every `OnRetry` call made
(`(attempt, err, delay)`). -/
structure LoopOut (σ : Type) where
  err : Option GoErr
  state : σ
  onRetryCalls : List (Nat × Option GoErr × Int)

/-- The `for attempt < maxAttempts` loop of `doRetry`, with
`fuel = maxAttempts - attempt` (so the loop guard holds iff `fuel > 0`).
`operation` is the stateful closure handed to `doRetry`; it returns the
updated closure state, the success flag, and the error. -/
def doRetryAux {σ : Type} (ctx : CtxModel) (isRec : Option GoErr → Bool)
    (onRetryPresent : Bool) (delayF : Int → Int)
    (operation : Nat → σ → σ × Bool × Option GoErr) :
    Nat → Nat → Int → σ → List (Nat × Option GoErr × Int) → LoopOut σ
  | 0, _, _, s, calls => ⟨some .allAttemptsFailed, s, calls⟩
  | fuel + 1, attempt, delay, s, calls =>
    match (ctx attempt).errBefore with
    | some ce => ⟨some ce.toErr, s, calls⟩
    | none =>
      match operation attempt s with
      | (s', true, _) => ⟨none, s', calls⟩
      | (s', false, err) =>
        if errIsO err .canceled || errIsO err .deadlineExceeded
            || (ctx attempt).errAfter.isSome then
          ⟨err, s', calls⟩
        else if !(isRec err) then
          ⟨err, s', calls⟩
        else
          match fuel with
          | 0 => ⟨some .allAttemptsFailed, s', calls⟩
          | fuel' + 1 =>
            let calls' :=
              if onRetryPresent then calls ++ [(attempt + 1, err, delay)]
              else calls
            match (ctx attempt).waitCancel with
            | some ce => ⟨some ce.toErr, s', calls'⟩
            | none =>
              doRetryAux ctx isRec onRetryPresent delayF operation
                (fuel' + 1) (attempt + 1) (delayF delay) s' calls'

/-- `doRetry(ctx, config, operation)`: the loop starts at `attempt = 0`
with `delay = config.Backoff.MinDelay()`. -/
def doRetryGo {σ : Type} (ctx : CtxModel) (maxAttempts : Nat)
    (isRec : Option GoErr → Bool) (onRetryPresent : Bool)
    (b : BackoffIface) (operation : Nat → σ → σ × Bool × Option GoErr)
    (s₀ : σ) : LoopOut σ :=
  doRetryAux ctx isRec onRetryPresent b.delay operation maxAttempts 0
    b.minDelay s₀ []

/-- Observable outcome of `Do`: the returned error, how many times the
operation was invoked, and the `OnRetry` calls made. -/
structure DoOut where
  err : Option GoErr
  opCalls : Nat
  onRetryCalls : List (Nat × Option GoErr × Int)
deriving DecidableEq, Repr

/-- `Do(ctx, config, op)` (latest version): validate the config, run
`doRetry` with a closure tracking `lastErr`, and on an
`ErrAllAttemptsFailed` result return
`fmt.Errorf("%w: %w", ErrAllAttemptsFailed, lastErr)` — both operands
enter the chain. `op` is indexed by invocation number. -/
def Do (ctx : CtxModel) (config : Config) (op : Nat → Option GoErr) : DoOut :=
  match validateConfig config with
  | .error e => ⟨some e, 0, []⟩
  | .ok (b, maxA, isRec) =>
    let operation : Nat → Nat × Option GoErr →
        (Nat × Option GoErr) × Bool × Option GoErr :=
      fun attempt s =>
        match op attempt with
        | none => ((s.1 + 1, s.2), true, none)
        | some e => ((s.1 + 1, some e), false, some e)
    let out := doRetryGo ctx maxA isRec config.onRetryPresent b operation
      (0, none)
    match out.err with
    | none => ⟨none, out.state.1, out.onRetryCalls⟩
    | some e =>
      if errIs e .allAttemptsFailed then
        ⟨some (.wrapBoth .allAttemptsFailed (out.state.2.getD .nilOperand)),
          out.state.1, out.onRetryCalls⟩
      else ⟨some e, out.state.1, out.onRetryCalls⟩

/-- `DoWithValue(ctx, config, op)`: like `Do` but the closure also
stores the operation's result; on exhaustion the final error is
`fmt.Errorf("%w: %v", ErrAllAttemptsFailed, lastErr)` — only the
sentinel enters the chain, `lastErr` is printed into the message. On
any error the zero value (`default`) is returned. -/
def DoWithValue {T : Type} [Inhabited T] (ctx : CtxModel) (config : Config)
    (op : Nat → T × Option GoErr) : T × DoOut :=
  match validateConfig config with
  | .error e => (default, ⟨some e, 0, []⟩)
  | .ok (b, maxA, isRec) =>
    let operation : Nat → Nat × Option GoErr × T →
        (Nat × Option GoErr × T) × Bool × Option GoErr :=
      fun attempt s =>
        match op attempt with
        | (v, none) => ((s.1 + 1, s.2.1, v), true, none)
        | (v, some e) => ((s.1 + 1, some e, v), false, some e)
    let out := doRetryGo ctx maxA isRec config.onRetryPresent b operation
      (0, none, default)
    match out.err with
    | none => (out.state.2.2, ⟨none, out.state.1, out.onRetryCalls⟩)
    | some e =>
      if errIs e .allAttemptsFailed then
        (default,
          ⟨some (.wrapMsg .allAttemptsFailed (out.state.2.1.getD .nilOperand)),
            out.state.1, out.onRetryCalls⟩)
      else (default, ⟨some e, out.state.1, out.onRetryCalls⟩)

/-- `WithTimeout(ctx, config, timeout, op)`: reject a non-positive
timeout before anything else; otherwise run `DoWithValue` on the
operation closed over a per-attempt timeout context (modelled by handing
the timeout to the operation). -/
def WithTimeout {T : Type} [Inhabited T] (ctx : CtxModel) (config : Config)
    (timeout : Int) (op : Int → Nat → T × Option GoErr) : T × DoOut :=
  if timeout ≤ 0 then (default, ⟨some .timeoutNotPositive, 0, []⟩)
  else DoWithValue ctx config (fun n => op timeout n)

/-- A context whose cancellation fires during the wait between the first
and the second attempt. -/
def ctxCancelInFirstWait : CtxModel :=
  fun k => if k = 0 then ⟨none, none, some .canceled⟩ else ⟨none, none, none⟩

/-- A context that is already cancelled before any attempt. -/
def ctxPreCancelled : CtxModel := fun _ => ⟨some .canceled, none, none⟩

/-! ### Helper lemmas -/

theorem errIs_refl (e : GoErr) : errIs e e = true := by
  unfold errIs
  simp

theorem ratTrunc_zero : ratTrunc 0 = 0 := rfl

theorem ite_lt_eq_max (p m : Int) : (if p < m then m else p) = max p m := by
  split_ifs <;> omega

theorem defaultRecoverable_elim {e : GoErr}
    (h : defaultRecoverable (some e) = true) :
    errIs e .canceled = false ∧ errIs e .deadlineExceeded = false ∧
      isUnrecoverableError e = false := by
  simp only [defaultRecoverable, errIsO, isUnrecoverableErrorO,
    Option.isSome_some, Bool.true_and, Bool.and_eq_true,
    Bool.not_eq_true'] at h
  exact ⟨h.1.1, h.1.2, h.2⟩

theorem errIs_iff_mem_chain (e t : GoErr) :
    errIs e t = true ↔ t ∈ errChain e := by
  induction e with
  | canceled => unfold errIs errChain; simp [eq_comm]
  | deadlineExceeded => unfold errIs errChain; simp [eq_comm]
  | allAttemptsFailed => unfold errIs errChain; simp [eq_comm]
  | backoffRequired => unfold errIs errChain; simp [eq_comm]
  | timeoutNotPositive => unfold errIs errChain; simp [eq_comm]
  | nilOperand => unfold errIs errChain; simp [eq_comm]
  | base n => unfold errIs errChain; simp [eq_comm]
  | unrecoverable c ih =>
      unfold errIs errChain
      split_ifs with h
      · simp [h]
      · simp only [ih, List.mem_cons]
        constructor
        · exact fun hm => Or.inr hm
        · rintro (rfl | hm)
          · exact absurd rfl h
          · exact hm
  | wrapBoth a b iha ihb =>
      unfold errIs errChain
      split_ifs with h
      · simp [h]
      · simp only [Bool.or_eq_true, iha, ihb, List.mem_cons, List.mem_append]
        constructor
        · exact fun hm => Or.inr hm
        · rintro (rfl | hm)
          · exact absurd rfl h
          · exact hm
  | wrapMsg a b iha _ =>
      unfold errIs errChain
      split_ifs with h
      · simp [h]
      · simp only [iha, List.mem_cons]
        constructor
        · exact fun hm => Or.inr hm
        · rintro (rfl | hm)
          · exact absurd rfl h
          · exact hm

theorem isUnrecoverableError_iff_chain (e : GoErr) :
    isUnrecoverableError e = true ↔
      ∃ x ∈ errChain e, isMarkedNode x = true := by
  induction e with
  | canceled => unfold isUnrecoverableError errChain; simp [isMarkedNode]
  | deadlineExceeded => unfold isUnrecoverableError errChain; simp [isMarkedNode]
  | allAttemptsFailed => unfold isUnrecoverableError errChain; simp [isMarkedNode]
  | backoffRequired => unfold isUnrecoverableError errChain; simp [isMarkedNode]
  | timeoutNotPositive => unfold isUnrecoverableError errChain; simp [isMarkedNode]
  | nilOperand => unfold isUnrecoverableError errChain; simp [isMarkedNode]
  | base n => unfold isUnrecoverableError errChain; simp [isMarkedNode]
  | unrecoverable c ih =>
      unfold isUnrecoverableError errChain
      simp [isMarkedNode]
  | wrapBoth a b iha ihb =>
      unfold isUnrecoverableError errChain
      simp only [Bool.or_eq_true, iha, ihb, List.mem_cons, List.mem_append]
      constructor
      · rintro (⟨x, hx, hm⟩ | ⟨x, hx, hm⟩)
        · exact ⟨x, Or.inr (Or.inl hx), hm⟩
        · exact ⟨x, Or.inr (Or.inr hx), hm⟩
      · rintro ⟨x, (rfl | hx | hx), hm⟩
        · exact absurd hm (by simp [isMarkedNode])
        · exact Or.inl ⟨x, hx, hm⟩
        · exact Or.inr ⟨x, hx, hm⟩
  | wrapMsg a b iha _ =>
      unfold isUnrecoverableError errChain
      simp [isMarkedNode, iha]

/-! ### Claim theorems -/

/-- C1: for every `BackOff` with `0 ≤ minDelay ≤ maxDelay`, `factor ≥ 0`,
any `jitter`, any `previous` (negative included) and any random draw,
`Delay(previous)` lies in `[minDelay, maxDelay]`. -/
theorem Delay_within_bounds (b : GoBackOff) (rnd : ℚ) (previous : Int)
    (h0 : 0 ≤ b.minDelay) (hle : b.minDelay ≤ b.maxDelay)
    (hf : 0 ≤ b.factor) :
    b.minDelay ≤ b.Delay rnd previous ∧ b.Delay rnd previous ≤ b.maxDelay := by
  refine ⟨?_, ?_⟩ <;>
    · unfold GoBackOff.Delay
      simp only []
      split_ifs <;> omega

/-- C1 witness. -/
theorem Delay_within_bounds_witness :
    0 ≤ (1 : Int) ∧ (1 : Int) ≤ 10 ∧ 0 ≤ (2 : ℚ) ∧
      (1 ≤ GoBackOff.Delay ⟨1, 10, 2, 3⟩ (1/3) (-5) ∧
        GoBackOff.Delay ⟨1, 10, 2, 3⟩ (1/3) (-5) ≤ 10) :=
  ⟨by norm_num, by norm_num, by norm_num,
    Delay_within_bounds ⟨1, 10, 2, 3⟩ (1/3) (-5)
      (by norm_num) (by norm_num) (by norm_num)⟩

/-- C4: with `jitter = 0`, `Delay(previous)` does not depend on the
random draw and equals
`clamp(max(previous, minDelay) * factor, minDelay, maxDelay)`. -/
theorem Delay_no_jitter_deterministic (b : GoBackOff) (rnd rnd' : ℚ)
    (previous : Int) (hj : b.jitter = 0) (hle : b.minDelay ≤ b.maxDelay)
    (hf : 0 ≤ b.factor) :
    b.Delay rnd previous = b.Delay rnd' previous ∧
      b.Delay rnd previous = specNextDelayNoJitter b previous := by
  have key : ∀ r : ℚ, b.Delay r previous = specNextDelayNoJitter b previous := by
    intro r
    unfold GoBackOff.Delay specNextDelayNoJitter clamp
    rw [hj]
    simp only [mul_zero, ratTrunc_zero, add_zero, ite_lt_eq_max]
    split_ifs <;> omega
  exact ⟨(key rnd).trans (key rnd').symm, key rnd⟩

/-- C4 witness. -/
theorem Delay_no_jitter_deterministic_witness :
    (GoBackOff.jitter ⟨100, 10000, 2, 0⟩ = 0) ∧ (100 : Int) ≤ 10000 ∧
      0 ≤ (2 : ℚ) ∧
      (GoBackOff.Delay ⟨100, 10000, 2, 0⟩ (1/3) 200 =
          GoBackOff.Delay ⟨100, 10000, 2, 0⟩ (2/3) 200 ∧
        GoBackOff.Delay ⟨100, 10000, 2, 0⟩ (1/3) 200 =
          specNextDelayNoJitter ⟨100, 10000, 2, 0⟩ 200) :=
  ⟨rfl, by norm_num, by norm_num,
    Delay_no_jitter_deterministic ⟨100, 10000, 2, 0⟩ (1/3) (2/3) 200
      rfl (by norm_num) (by norm_num)⟩

/-- C3: the executor's default classification declares an error
recoverable iff it is non-nil, neither `context.Canceled` nor
`context.DeadlineExceeded` appears anywhere in its chain, and no node of
its chain is marked unrecoverable. -/
theorem defaultRecoverable_iff_chain :
    defaultRecoverable none = false ∧
      ∀ e : GoErr,
        (defaultRecoverable (some e) = true ↔
          (GoErr.canceled ∉ errChain e ∧
            GoErr.deadlineExceeded ∉ errChain e ∧
            ∀ x ∈ errChain e, isMarkedNode x = false)) := by
  refine ⟨rfl, fun e => ?_⟩
  simp only [defaultRecoverable, errIsO, isUnrecoverableErrorO,
    Option.isSome_some, Bool.true_and, Bool.and_eq_true, Bool.not_eq_true']
  constructor
  · rintro ⟨⟨hc, hd⟩, hu⟩
    refine ⟨?_, ?_, ?_⟩
    · intro hmem
      exact absurd ((errIs_iff_mem_chain e .canceled).mpr hmem)
        (by simp [hc])
    · intro hmem
      exact absurd ((errIs_iff_mem_chain e .deadlineExceeded).mpr hmem)
        (by simp [hd])
    · intro x hx
      by_contra hcon
      have : isUnrecoverableError e = true :=
        (isUnrecoverableError_iff_chain e).mpr
          ⟨x, hx, by simpa using hcon⟩
      simp [this] at hu
  · rintro ⟨hc, hd, hu⟩
    refine ⟨⟨?_, ?_⟩, ?_⟩
    · by_contra hcon
      exact hc ((errIs_iff_mem_chain e .canceled).mp (by simpa using hcon))
    · by_contra hcon
      exact hd ((errIs_iff_mem_chain e .deadlineExceeded).mp
        (by simpa using hcon))
    · by_contra hcon
      obtain ⟨x, hx, hmk⟩ :=
        (isUnrecoverableError_iff_chain e).mp (by simpa using hcon)
      simp [hu x hx] at hmk

/-- C3 witness. -/
theorem defaultRecoverable_iff_chain_witness :
    defaultRecoverable (some (GoErr.base 3)) = true :=
  (defaultRecoverable_iff_chain.2 (GoErr.base 3)).mpr (by decide)

/-- C2 counterexample: under the claim's hypotheses (always-failing
operation with a recoverable error, `maxAttempts = 3`), the error
returned by `DoWithValue` does *not* chain-contain the last operation
error — `"%w: %v"` only prints it. -/
theorem DoWithValue_exhaustion_drops_lastErr_chain :
    defaultRecoverable (some (GoErr.base 7)) = true ∧
      errIsO ((DoWithValue (T := Nat) ctxNone
          ⟨3, some ⟨10, fun d => d * 2⟩, none, true⟩
          (fun _ => (0, some (.base 7)))).2).err (.base 7) = false := by
  constructor
  · decide
  · rfl

/-- C2 amended: with an always-failing recoverable operation and
`maxAttempts = 3`, both `Do` and `DoWithValue` invoke the operation
exactly 3 times and `onRetry` exactly twice, and both returned errors
chain-match `ErrAllAttemptsFailed`; `Do`'s error also chain-contains the
last operation error, while `DoWithValue`'s merely prints it into the
message (`"%w: %v"`), so the last error is absent from its chain. -/
theorem retry_exhaustion_three_attempts (bo : BackoffIface) (e : Nat → GoErr)
    (hrec : ∀ n, defaultRecoverable (some (e n)) = true) :
    Do ctxNone ⟨3, some bo, none, true⟩ (fun n => some (e n)) =
      ⟨some (.wrapBoth .allAttemptsFailed (e 2)), 3,
        [(1, some (e 0), bo.minDelay),
         (2, some (e 1), bo.delay bo.minDelay)]⟩ ∧
    DoWithValue (T := Nat) ctxNone ⟨3, some bo, none, true⟩
        (fun n => (0, some (e n))) =
      (0, ⟨some (.wrapMsg .allAttemptsFailed (e 2)), 3,
        [(1, some (e 0), bo.minDelay),
         (2, some (e 1), bo.delay bo.minDelay)]⟩) ∧
    errIsO (some (GoErr.wrapBoth .allAttemptsFailed (e 2)))
      .allAttemptsFailed = true ∧
    errIsO (some (GoErr.wrapBoth .allAttemptsFailed (e 2))) (e 2) = true ∧
    errIsO (some (GoErr.wrapMsg .allAttemptsFailed (e 2)))
      .allAttemptsFailed = true := by
  obtain ⟨hc0, hd0, _⟩ := defaultRecoverable_elim (hrec 0)
  obtain ⟨hc1, hd1, _⟩ := defaultRecoverable_elim (hrec 1)
  obtain ⟨hc2, hd2, _⟩ := defaultRecoverable_elim (hrec 2)
  refine ⟨?_, ?_, ?_, ?_, ?_⟩ <;>
    simp [Do, DoWithValue, validateConfig, doRetryGo, doRetryAux, ctxNone,
      errIsO, hc0, hc1, hc2, hd0, hd1, hd2, hrec 0, hrec 1, hrec 2,
      errIs_refl, errIs]

/-- C2 witness. -/
theorem retry_exhaustion_three_attempts_witness :
    Do ctxNone ⟨3, some ⟨10, fun d => d * 2⟩, none, true⟩
        (fun n => some (.base n)) =
      ⟨some (.wrapBoth .allAttemptsFailed (.base 2)), 3,
        [(1, some (.base 0), 10), (2, some (.base 1), 20)]⟩ ∧
    DoWithValue (T := Nat) ctxNone ⟨3, some ⟨10, fun d => d * 2⟩, none, true⟩
        (fun n => (0, some (.base n))) =
      (0, ⟨some (.wrapMsg .allAttemptsFailed (.base 2)), 3,
        [(1, some (.base 0), 10), (2, some (.base 1), 20)]⟩) ∧
    errIsO (some (GoErr.wrapBoth .allAttemptsFailed (.base 2)))
      .allAttemptsFailed = true ∧
    errIsO (some (GoErr.wrapBoth .allAttemptsFailed (.base 2)))
      (.base 2) = true ∧
    errIsO (some (GoErr.wrapMsg .allAttemptsFailed (.base 2)))
      .allAttemptsFailed = true :=
  retry_exhaustion_three_attempts ⟨10, fun d => d * 2⟩ (fun n => .base n)
    (fun n => by simp [defaultRecoverable, errIsO, errIs,
      isUnrecoverableErrorO, isUnrecoverableError])

/-- C5: an operation that fails twice with recoverable errors and
succeeds on the third call, under `maxAttempts = 5`, is invoked exactly
3 times, `onRetry` fires exactly twice, and the executor reports success
(`nil` error; for `DoWithValue` the successful call's value) with no
further attempts or waits. -/
theorem retry_success_on_third_attempt (bo : BackoffIface) (e0 e1 : GoErr)
    (v : Nat) (h0 : defaultRecoverable (some e0) = true)
    (h1 : defaultRecoverable (some e1) = true) :
    Do ctxNone ⟨5, some bo, none, true⟩
        (fun n => if n = 0 then some e0 else if n = 1 then some e1 else none) =
      ⟨none, 3, [(1, some e0, bo.minDelay),
        (2, some e1, bo.delay bo.minDelay)]⟩ ∧
    DoWithValue (T := Nat) ctxNone ⟨5, some bo, none, true⟩
        (fun n => if n = 0 then ((0 : Nat), some e0)
          else if n = 1 then (0, some e1) else (v, none)) =
      (v, ⟨none, 3, [(1, some e0, bo.minDelay),
        (2, some e1, bo.delay bo.minDelay)]⟩) := by
  obtain ⟨hc0, hd0, _⟩ := defaultRecoverable_elim h0
  obtain ⟨hc1, hd1, _⟩ := defaultRecoverable_elim h1
  refine ⟨?_, ?_⟩ <;>
    simp [Do, DoWithValue, validateConfig, doRetryGo, doRetryAux, ctxNone,
      errIsO, hc0, hc1, hd0, hd1, h0, h1]

/-- C5 witness. -/
theorem retry_success_on_third_attempt_witness :
    Do ctxNone ⟨5, some ⟨10, fun d => d * 2⟩, none, true⟩
        (fun n => if n = 0 then some (.base 0)
          else if n = 1 then some (.base 1) else none) =
      ⟨none, 3, [(1, some (.base 0), 10), (2, some (.base 1), 20)]⟩ ∧
    DoWithValue (T := Nat) ctxNone ⟨5, some ⟨10, fun d => d * 2⟩, none, true⟩
        (fun n => if n = 0 then ((0 : Nat), some (.base 0))
          else if n = 1 then (0, some (.base 1)) else (42, none)) =
      (42, ⟨none, 3, [(1, some (.base 0), 10), (2, some (.base 1), 20)]⟩) :=
  retry_success_on_third_attempt ⟨10, fun d => d * 2⟩ (.base 0) (.base 1) 42
    (by decide) (by decide)

/-- C6: when the first call returns an error wrapped by
`NewUnrecoverableError` (whose cause is not a cancellation or exhaustion
sentinel), under `maxAttempts = 5` and the default classifier, the
operation runs exactly once, `onRetry` never fires, and the error is
returned unchanged: chain-identifiable as unrecoverable and not
wrapped in `ErrAllAttemptsFailed`. -/
theorem retry_unrecoverable_stops_immediately (bo : BackoffIface) (c : GoErr)
    (hc : errIs (GoErr.unrecoverable c) .canceled = false)
    (hd : errIs (GoErr.unrecoverable c) .deadlineExceeded = false)
    (ha : errIs (GoErr.unrecoverable c) .allAttemptsFailed = false) :
    Do ctxNone ⟨5, some bo, none, true⟩ (fun _ => some (.unrecoverable c)) =
      ⟨some (.unrecoverable c), 1, []⟩ ∧
    isUnrecoverableErrorO (some (GoErr.unrecoverable c)) = true ∧
    errIsO (some (GoErr.unrecoverable c)) .allAttemptsFailed = false := by
  refine ⟨?_, ?_, ?_⟩
  · simp [Do, validateConfig, doRetryGo, doRetryAux, ctxNone, errIsO,
      hc, hd, ha, defaultRecoverable, isUnrecoverableErrorO,
      isUnrecoverableError]
  · simp [isUnrecoverableErrorO, isUnrecoverableError]
  · simp [errIsO, ha]

/-- C6 witness. -/
theorem retry_unrecoverable_stops_immediately_witness :
    Do ctxNone ⟨5, some ⟨10, fun d => d * 2⟩, none, true⟩
        (fun _ => some (.unrecoverable (.base 5))) =
      ⟨some (.unrecoverable (.base 5)), 1, []⟩ ∧
    isUnrecoverableErrorO (some (GoErr.unrecoverable (.base 5))) = true ∧
    errIsO (some (GoErr.unrecoverable (.base 5))) .allAttemptsFailed = false :=
  retry_unrecoverable_stops_immediately ⟨10, fun d => d * 2⟩ (.base 5)
    (by decide) (by decide) (by decide)

/-- C7: once the governing signal has fired the operation is not invoked
again. (a) On an already-cancelled entry to any attempt, `doRetry`
returns the context's error without running the operation (closure state
and callback trace unchanged). (b) If cancellation fires during the wait
between attempt 1 and attempt 2, the sequence terminates with
`context.Canceled` after a single invocation — chain-identifiable as
cancellation and not as exhaustion. -/
theorem cancellation_preempts_operation :
    (∀ {σ : Type} (ctx : CtxModel) (isRec : Option GoErr → Bool)
        (orp : Bool) (delayF : Int → Int)
        (operation : Nat → σ → σ × Bool × Option GoErr)
        (fuel attempt : Nat) (delay : Int) (s : σ)
        (calls : List (Nat × Option GoErr × Int)) (ce : CtxErr),
      (ctx attempt).errBefore = some ce →
      doRetryAux ctx isRec orp delayF operation (fuel + 1) attempt delay
        s calls = ⟨some ce.toErr, s, calls⟩) ∧
    (∀ (bo : BackoffIface) (e0 : GoErr),
      defaultRecoverable (some e0) = true →
      Do ctxCancelInFirstWait ⟨3, some bo, none, true⟩ (fun _ => some e0) =
        ⟨some .canceled, 1, [(1, some e0, bo.minDelay)]⟩ ∧
      errIsO (some GoErr.canceled) .canceled = true ∧
      errIsO (some GoErr.canceled) .allAttemptsFailed = false) := by
  constructor
  · intro σ ctx isRec orp delayF operation fuel attempt delay s calls ce h
    simp [doRetryAux, h]
  · intro bo e0 hrec
    obtain ⟨hc, hd, _⟩ := defaultRecoverable_elim hrec
    refine ⟨?_, by decide, by decide⟩
    simp [Do, validateConfig, doRetryGo, doRetryAux, ctxCancelInFirstWait,
      errIsO, hc, hd, hrec, CtxErr.toErr, errIs]

/-- C7 witness. -/
theorem cancellation_preempts_operation_witness :
    doRetryAux (σ := Nat) ctxPreCancelled (fun _ => true) true
        (fun d => d) (fun _ s => (s, true, none)) 1 0 0 0 [] =
      ⟨some .canceled, 0, []⟩ ∧
    Do ctxCancelInFirstWait ⟨3, some ⟨10, fun d => d * 2⟩, none, true⟩
        (fun _ => some (.base 1)) =
      ⟨some .canceled, 1, [(1, some (.base 1), 10)]⟩ :=
  ⟨cancellation_preempts_operation.1 ctxPreCancelled (fun _ => true) true
      (fun d => d) (fun _ s => (s, true, none)) 0 0 0 0 [] .canceled rfl,
    (cancellation_preempts_operation.2 ⟨10, fun d => d * 2⟩ (.base 1)
      (by decide)).1⟩

/-- C8: a `Config` with a nil `Backoff` makes `Do` and `DoWithValue`
return the misconfiguration error without invoking the operation; that
error matches none of the cancellation, unrecoverable or exhaustion
identities. -/
theorem missing_backoff_misconfiguration (ctx : CtxModel) (config : Config)
    (op : Nat → Option GoErr) (opv : Nat → Nat × Option GoErr)
    (h : config.backoff = none) :
    Do ctx config op = ⟨some .backoffRequired, 0, []⟩ ∧
    DoWithValue (T := Nat) ctx config opv =
      (0, ⟨some .backoffRequired, 0, []⟩) ∧
    errIs .backoffRequired .canceled = false ∧
    errIs .backoffRequired .deadlineExceeded = false ∧
    errIs .backoffRequired .allAttemptsFailed = false ∧
    isUnrecoverableError .backoffRequired = false := by
  refine ⟨?_, ?_, by decide, by decide, by decide, by decide⟩ <;>
    simp [Do, DoWithValue, validateConfig, h]

/-- C8 witness. -/
theorem missing_backoff_misconfiguration_witness :
    Do ctxNone ⟨3, none, none, true⟩ (fun _ => some (.base 1)) =
      ⟨some .backoffRequired, 0, []⟩ ∧
    DoWithValue (T := Nat) ctxNone ⟨3, none, none, true⟩
        (fun _ => (0, some (.base 1))) =
      (0, ⟨some .backoffRequired, 0, []⟩) ∧
    errIs .backoffRequired .canceled = false ∧
    errIs .backoffRequired .deadlineExceeded = false ∧
    errIs .backoffRequired .allAttemptsFailed = false ∧
    isUnrecoverableError .backoffRequired = false :=
  missing_backoff_misconfiguration ctxNone ⟨3, none, none, true⟩
    (fun _ => some (.base 1)) (fun _ => (0, some (.base 1))) rfl

/-- C9 counterexample: on an already-cancelled context the operation is
never invoked, refuting "for every context … the operation is invoked at
least once" (here with `MaxAttempts = 0` and a backoff supplied). -/
theorem maxAttempts_zero_not_always_invoked :
    (Do ctxPreCancelled ⟨0, some ⟨1, fun d => d⟩, none, true⟩
      (fun _ => some (.base 1))).opCalls = 0 := rfl

/-- C9 amended: `MaxAttempts = 0` behaves identically to
`MaxAttempts = 1` for `Do` and `DoWithValue` (same error, value,
invocation count and `onRetry` calls); the operation is invoked at least
once whenever a backoff is supplied and the context is not already
cancelled on entry. -/
theorem maxAttempts_zero_same_as_one {T : Type} [Inhabited T]
    (ctx : CtxModel) (config : Config) (op : Nat → Option GoErr)
    (opv : Nat → T × Option GoErr) (h : config.maxAttempts = 0) :
    Do ctx config op = Do ctx { config with maxAttempts := 1 } op ∧
    DoWithValue ctx config opv =
      DoWithValue ctx { config with maxAttempts := 1 } opv ∧
    (∀ b, config.backoff = some b → (ctx 0).errBefore = none →
      1 ≤ (Do ctx config op).opCalls ∧
      1 ≤ (DoWithValue ctx config opv).2.opCalls) := by
  obtain ⟨ma, bo, ir, orp⟩ := config
  simp only [Config.mk.injEq] at h ⊢
  subst h
  refine ⟨rfl, rfl, ?_⟩
  intro b hb hctx
  subst hb
  constructor
  · rcases hop : op 0 with _ | e <;>
      simp [Do, validateConfig, doRetryGo, doRetryAux, hctx, hop] <;>
      split_ifs <;>
      simp [apply_ite DoOut.opCalls]
  · rcases hop : opv 0 with ⟨v, _ | e⟩ <;>
      simp [DoWithValue, validateConfig, doRetryGo, doRetryAux, hctx, hop] <;>
      split_ifs <;>
      simp [apply_ite (fun p : T × DoOut => p.2.opCalls)]

/-- C9 witness. -/
theorem maxAttempts_zero_same_as_one_witness :
    Do ctxNone ⟨0, some ⟨1, fun d => d⟩, none, true⟩ (fun _ => none) =
      Do ctxNone ⟨1, some ⟨1, fun d => d⟩, none, true⟩ (fun _ => none) ∧
    1 ≤ (Do ctxNone ⟨0, some ⟨1, fun d => d⟩, none, true⟩
      (fun _ => none)).opCalls ∧
    1 ≤ (DoWithValue (T := Nat) ctxNone ⟨0, some ⟨1, fun d => d⟩, none, true⟩
      (fun _ => (0, none))).2.opCalls :=
  ⟨(maxAttempts_zero_same_as_one (T := Nat) ctxNone
      ⟨0, some ⟨1, fun d => d⟩, none, true⟩ (fun _ => none)
      (fun _ => (0, none)) rfl).1,
    ((maxAttempts_zero_same_as_one (T := Nat) ctxNone
      ⟨0, some ⟨1, fun d => d⟩, none, true⟩ (fun _ => none)
      (fun _ => (0, none)) rfl).2.2 ⟨1, fun d => d⟩ rfl rfl).1,
    ((maxAttempts_zero_same_as_one (T := Nat) ctxNone
      ⟨0, some ⟨1, fun d => d⟩, none, true⟩ (fun _ => none)
      (fun _ => (0, none)) rfl).2.2 ⟨1, fun d => d⟩ rfl rfl).2⟩

/-- C10: a non-positive timeout makes `WithTimeout` return the zero
value and an error without invoking the operation or consulting the
config (hence the backoff); a positive timeout makes it behave exactly
as `DoWithValue` on the timeout-wrapped operation. -/
theorem withTimeout_guard_and_delegation {T : Type} [Inhabited T]
    (ctx : CtxModel) (config config' : Config) (timeout : Int)
    (op : Int → Nat → T × Option GoErr) :
    (timeout ≤ 0 →
      WithTimeout ctx config timeout op =
        (default, ⟨some .timeoutNotPositive, 0, []⟩) ∧
      WithTimeout ctx config timeout op =
        WithTimeout ctx config' timeout op) ∧
    (0 < timeout →
      WithTimeout ctx config timeout op =
        DoWithValue ctx config (fun n => op timeout n)) := by
  constructor
  · intro h
    constructor <;> simp [WithTimeout, h]
  · intro h
    rw [WithTimeout, if_neg (by omega)]

/-- C10 witness. -/
theorem withTimeout_guard_and_delegation_witness :
    (WithTimeout (T := Nat) ctxNone ⟨3, some ⟨1, fun d => d⟩, none, true⟩
        (-1) (fun _ _ => (5, none)) =
      (default, ⟨some .timeoutNotPositive, 0, []⟩)) ∧
    (WithTimeout (T := Nat) ctxNone ⟨3, some ⟨1, fun d => d⟩, none, true⟩
        7 (fun _ _ => (5, none)) =
      DoWithValue ctxNone ⟨3, some ⟨1, fun d => d⟩, none, true⟩
        (fun n => (fun _ _ => ((5 : Nat), none)) (7 : Int) n)) :=
  ⟨((withTimeout_guard_and_delegation (T := Nat) ctxNone
      ⟨3, some ⟨1, fun d => d⟩, none, true⟩
      ⟨3, none, none, false⟩ (-1) (fun _ _ => (5, none))).1
      (by norm_num)).1,
    (withTimeout_guard_and_delegation (T := Nat) ctxNone
      ⟨3, some ⟨1, fun d => d⟩, none, true⟩
      ⟨3, none, none, false⟩ 7 (fun _ _ => (5, none))).2 (by norm_num)⟩

end Decogen
